import Mathlib

/-!
# Verification of the react-interactive-graph interaction core

A shallow embedding, in Lean 4, of the interaction/state engine of the
`react-interactive-graph` repository: the pointer-gesture state machine of the
hooks-based `Graph` component (Graph.tsx, second revision), the viewport
culling renderer (`Bounds` and the render loops, including the
`DraggingSubgraph`-based revision), the path-geometry helpers (util.ts
`pathD`), and the selection-set utility (`useSelectionSet`).

JavaScript numbers are modelled as rationals (`ℚ`): every arithmetic
operation the embedded code performs (addition, subtraction, division,
absolute value, min/max, comparison) is exact on the inputs the claims
quantify over.  Fallible code (handlers that can throw `assertEqual` or a
`TypeError` on an undefined node lookup) returns `Except String _`.
-/

namespace RIG

/-- World-space position (`Position` in types.ts). -/
structure Position where
  x : ℚ
  y : ℚ
  deriving DecidableEq, Repr

/-- Screen-space pointer position (`ScreenPosition` in Graph.tsx). -/
structure ScreenPosition where
  screenX : ℚ
  screenY : ℚ
  deriving DecidableEq, Repr

/-- Client-space pointer position (the `clientX`/`clientY` fields of a DOM
mouse event), used by `toWorldSpacePosition`. -/
structure ClientPosition where
  clientX : ℚ
  clientY : ℚ
  deriving DecidableEq, Repr

/-- A node (types.ts, second revision): id, world position, and size used
for viewport culling. -/
structure Node where
  id : String
  x : ℚ
  y : ℚ
  width : ℚ
  height : ℚ
  deriving DecidableEq, Repr

/-- An edge (types.ts, second revision). -/
structure Edge where
  id : String
  sourceId : String
  targetId : String
  deriving DecidableEq, Repr

/-- `nodesById[id]`: keyed lookup of a node by id (`keyBy` + record access);
`none` models JavaScript `undefined`. -/
def lookupNode (nodes : List Node) (id : String) : Option Node :=
  nodes.find? (fun n => n.id == id)

/-! ## Geometry utilities (util.ts, first revision: the complete one) -/

/-- `PathType` from util.ts. -/
inductive PathType where
  | STRAIGHT
  | RIGHT
  | THREE_PART
  | BEZIER
  deriving DecidableEq, Repr

/-- `PathDirection` from util.ts. -/
inductive PathDirection where
  | AUTO
  | HORIZONTAL_FIRST
  | VERTICAL_FIRST
  deriving DecidableEq, Repr

/-- Rendering of a coordinate into the SVG path string.  The claims in this
development only compare whole path strings produced by the same builders, so
any fixed rendering function works; we use `toString` on `ℚ`. -/
def numStr (q : ℚ) : String := toString q

/-- `_getAutoDirection` (util.ts lines 42-47, the complete revision):
horizontal-first when the absolute horizontal displacement exceeds the
absolute vertical displacement, vertical-first otherwise. -/
def _getAutoDirection (source target : Position) : PathDirection :=
  let deltaX := |target.x - source.x|
  let deltaY := |target.y - source.y|
  if deltaX > deltaY then PathDirection.HORIZONTAL_FIRST else PathDirection.VERTICAL_FIRST

/-- `_straight` (util.ts). -/
def _straight (source target : Position) : String :=
  "M" ++ numStr source.x ++ "," ++ numStr source.y ++
  "L" ++ numStr target.x ++ "," ++ numStr target.y

/-- `_right` (util.ts); the `AUTO` case throws in the source and is modelled
as `none` (it is unreachable from `pathD`). -/
def _right (source target : Position) (direction : PathDirection) : Option String :=
  match direction with
  | PathDirection.HORIZONTAL_FIRST =>
    some ("M" ++ numStr source.x ++ "," ++ numStr source.y ++
      "L" ++ numStr target.x ++ "," ++ numStr source.y ++
      "L" ++ numStr target.x ++ "," ++ numStr target.y)
  | PathDirection.VERTICAL_FIRST =>
    some ("M" ++ numStr source.x ++ "," ++ numStr source.y ++
      "L" ++ numStr source.x ++ "," ++ numStr target.y ++
      "L" ++ numStr target.x ++ "," ++ numStr target.y)
  | PathDirection.AUTO => none

/-- `_threePart` (util.ts). -/
def _threePart (source target : Position) (direction : PathDirection) : Option String :=
  match direction with
  | PathDirection.HORIZONTAL_FIRST =>
    let halfway := (source.x + target.x) / 2
    some ("M" ++ numStr source.x ++ "," ++ numStr source.y ++
      "L" ++ numStr halfway ++ "," ++ numStr source.y ++
      "L" ++ numStr halfway ++ "," ++ numStr target.y ++
      "L" ++ numStr target.x ++ "," ++ numStr target.y)
  | PathDirection.VERTICAL_FIRST =>
    let halfway := (source.y + target.y) / 2
    some ("M" ++ numStr source.x ++ "," ++ numStr source.y ++
      "L" ++ numStr source.x ++ "," ++ numStr halfway ++
      "L" ++ numStr target.x ++ "," ++ numStr halfway ++
      "L" ++ numStr target.x ++ "," ++ numStr target.y)
  | PathDirection.AUTO => none

/-- `_bezier` (util.ts). -/
def _bezier (source target : Position) (direction : PathDirection) : Option String :=
  match direction with
  | PathDirection.HORIZONTAL_FIRST =>
    let halfway := (source.x + target.x) / 2
    some ("M" ++ numStr source.x ++ "," ++ numStr source.y ++
      "C" ++ numStr halfway ++ "," ++ numStr source.y ++
      "," ++ numStr halfway ++ "," ++ numStr target.y ++
      "," ++ numStr target.x ++ "," ++ numStr target.y)
  | PathDirection.VERTICAL_FIRST =>
    let halfway := (source.y + target.y) / 2
    some ("M" ++ numStr source.x ++ "," ++ numStr source.y ++
      "C" ++ numStr source.x ++ "," ++ numStr halfway ++
      "," ++ numStr target.x ++ "," ++ numStr halfway ++
      "," ++ numStr target.x ++ "," ++ numStr target.y)
  | PathDirection.AUTO => none

/-- `pathD` (util.ts lines 17-40, the complete revision). -/
def pathD (source target : Position) (pathType : PathType := PathType.STRAIGHT)
    (preferredPathDirection : PathDirection := PathDirection.AUTO) : Option String :=
  if pathType = PathType.STRAIGHT then
    some (_straight source target)
  else
    let direction :=
      if preferredPathDirection = PathDirection.AUTO then _getAutoDirection source target
      else preferredPathDirection
    if pathType = PathType.RIGHT then _right source target direction
    else if pathType = PathType.THREE_PART then _threePart source target direction
    else if pathType = PathType.BEZIER then _bezier source target direction
    else none

/-! ## Viewport bounds (`Bounds` class, Graph.tsx lines 482-511 / part_005 lines 26-55) -/

/-- The `Bounds` class: an axis-aligned world-space rectangle. -/
structure Bounds where
  minX : ℚ
  maxX : ℚ
  minY : ℚ
  maxY : ℚ
  deriving DecidableEq, Repr

/-- `Bounds._overlaps`: strict comparisons on every side. -/
def Bounds._overlaps (b : Bounds) (minX maxX minY maxY : ℚ) : Bool :=
  maxX > b.minX && minX < b.maxX && maxY > b.minY && minY < b.maxY

/-- `Bounds.containsNode`: the node's bounding box is position ± half
width/height. -/
def Bounds.containsNode (b : Bounds) (n : Node) : Bool :=
  let halfWidth := n.width / 2
  let halfHeight := n.height / 2
  b._overlaps (n.x - halfWidth) (n.x + halfWidth) (n.y - halfHeight) (n.y + halfHeight)

/-- `Bounds.containsEdge`: the endpoints' bounding rectangle. -/
def Bounds.containsEdge (b : Bounds) (n1 n2 : Node) : Bool :=
  b._overlaps (min n1.x n2.x) (max n1.x n2.x) (min n1.y n2.y) (max n1.y n2.y)

/-! ## Selection set (part_003, `useSelectionSet`)

The mutable `Set<string>` plus the force-update nonce; a change notification
is an increment of `nonce`. -/

/-- State of `useSelectionSet` (part_003): the id set plus the number of
change notifications fired so far. -/
structure SelectionSet where
  members : Finset String
  nonce : ℕ
  deriving DecidableEq

namespace SelectionSet

/-- `add` (part_003 lines 28-36): insert and notify only when absent. -/
def add (s : SelectionSet) (id : String) : SelectionSet :=
  if id ∈ s.members then s else { members := insert id s.members, nonce := s.nonce + 1 }

/-- `remove` (part_003 lines 37-44): `set.delete` notifies only when it
actually deleted. -/
def remove (s : SelectionSet) (id : String) : SelectionSet :=
  if id ∈ s.members then { members := s.members.erase id, nonce := s.nonce + 1 } else s

/-- `toggle` (part_003 lines 46-54): delete if present else add; notify
unconditionally. -/
def toggle (s : SelectionSet) (id : String) : SelectionSet :=
  if id ∈ s.members then { members := s.members.erase id, nonce := s.nonce + 1 }
  else { members := insert id s.members, nonce := s.nonce + 1 }

/-- `reset` (part_003 lines 56-65): clear, optionally add one id, and notify
unconditionally. -/
def reset (s : SelectionSet) (id : Option String) : SelectionSet :=
  { members := match id with | some i => {i} | none => ∅, nonce := s.nonce + 1 }

end SelectionSet

/-! ## Gesture/interaction state machine (Graph.tsx, second revision, lines 468-1099)

Each DOM event handler of the hooks-based `Graph` component becomes one case
of a step function.  Caller-supplied gesture predicates (`shouldStartPan`,
`shouldStartNodeDrag`, `shouldStartCreateEdge`) are consumed by the handlers
only through their boolean results, so each mouse-down event carries those
results.  Callbacks are modelled as emitted events; the source guards each
invocation with presence of the caller-supplied callback (`onX?.(...)`),
which we model as the callback always being supplied.  The handlers that can
throw (`assertEqual` in the node click handler; the undefined-node property
access in `onNodeDragEnd`) return `Except`. -/

/-- `NodeDragState` (Graph.tsx lines 587-592). -/
structure NodeDragState where
  id : String
  dragging : Bool
  start : ScreenPosition
  last : ScreenPosition
  deriving DecidableEq, Repr

/-- `PanState` (Graph.tsx lines 594-598). -/
structure PanState where
  panning : Bool
  start : ScreenPosition
  last : ScreenPosition
  deriving DecidableEq, Repr

/-- `EdgeCreateState` (Graph.tsx lines 600-606): the source node object is
captured at mouse-down (possibly `undefined` if the id fails to resolve). -/
structure EdgeCreateState where
  source : Option Node
  target : Option Node
  start : ScreenPosition
  last : ScreenPosition
  didLeaveOriginalNode : Bool
  deriving DecidableEq, Repr

/-- The immutable environment of a gesture run: props plus the geometry that
`toWorldSpacePosition` reads from the DOM.  `scale` mutates only through
wheel-zoom, which no claim exercises, so it lives here. -/
structure Config where
  nodes : List Node
  clickFudgeFactor : ℚ
  scale : ℚ
  rectLeft : ℚ
  rectTop : ℚ
  clientLeft : ℚ
  clientTop : ℚ
  deriving Repr

/-- The component's mutable interaction state: the pan/zoom transform's pan,
the three gesture slots, and the two click-suppression refs. -/
structure GraphState where
  transformPan : Position
  panState : Option PanState
  dragState : Option NodeDragState
  incompleteEdge : Option EdgeCreateState
  shouldSkipNextNodeClick : Option String
  shouldSkipNextBackgroundClick : Bool
  deriving DecidableEq, Repr

/-- The state on mount: no gesture active, nothing suppressed. -/
def initialState (pan : Position) : GraphState :=
  { transformPan := pan
    panState := none
    dragState := none
    incompleteEdge := none
    shouldSkipNextNodeClick := none
    shouldSkipNextBackgroundClick := false }

/-- The DOM events the component handles.  Mouse-down events carry the
results of the caller-supplied predicates evaluated on that event. -/
inductive Event where
  | mouseDownBackground (p : ScreenPosition) (shouldStartPan : Bool)
  | clickBackground (c : ClientPosition)
  | mouseDownNode (id : String) (p : ScreenPosition)
      (shouldStartCreateEdge shouldStartNodeDrag : Bool)
  | mouseUpNode (id : String) (p : ScreenPosition)
  | mouseEnterNode (id : String)
  | mouseLeaveNode
  | clickNode (id : String) (c : ClientPosition)
  | mouseMoveDocument (p : ScreenPosition)
  | mouseUpDocument (p : ScreenPosition)
  deriving DecidableEq, Repr

/-- The high-level callbacks the component delivers to its caller. -/
inductive Callback where
  | onClickBackground (position : Position)
  | onClickNode (id : String) (node : Option Node) (position : Position)
  | onNodeDragEnd (id : String) (node : Node) (position : Position)
  | onCreateEdgeEnd (source : Option Node) (target : Option Node)
  deriving DecidableEq, Repr

/-- `toWorldSpacePosition` (Graph.tsx lines 698-715): inverse-transform of
client coordinates through the current scale and pan. -/
def toWorldSpacePosition (cfg : Config) (pan : Position) (c : ClientPosition) : Position :=
  { x := (c.clientX - cfg.rectLeft - cfg.clientLeft) / cfg.scale - pan.x
    y := (c.clientY - cfg.rectTop - cfg.clientTop) / cfg.scale - pan.y }

/-- `isWithinFudgeFactor` (Graph.tsx lines 717-725). -/
def isWithinFudgeFactor (cfg : Config) (e : ScreenPosition) (start : ScreenPosition) : Prop :=
  |e.screenX - start.screenX| ≤ cfg.clickFudgeFactor ∧
  |e.screenY - start.screenY| ≤ cfg.clickFudgeFactor

instance (cfg : Config) (e start : ScreenPosition) :
    Decidable (isWithinFudgeFactor cfg e start) := by
  unfold isWithinFudgeFactor; infer_instance

/-- One step of the interaction state machine: the handler the event is
wired to, translated statement by statement from Graph.tsx (second
revision).  Returns the successor state and the callbacks fired, or the
message of the exception thrown. -/
def stepE (cfg : Config) (s : GraphState) : Event → Except String (GraphState × List Callback)
  | Event.mouseDownBackground p sp =>
    -- onMouseDownBackground (727-737)
    .ok ({ s with panState := some { panning := sp, start := p, last := p } }, [])
  | Event.clickBackground c =>
    -- onClickBackgroundWrapper (739-748)
    if s.shouldSkipNextBackgroundClick then
      .ok ({ s with shouldSkipNextBackgroundClick := false }, [])
    else
      .ok (s, [Callback.onClickBackground (toWorldSpacePosition cfg s.transformPan c)])
  | Event.mouseDownNode id p sce ssd =>
    -- onMouseDownNode (750-778)
    if sce then
      .ok ({ s with incompleteEdge := some {
          source := lookupNode cfg.nodes id
          target := none
          start := p
          last := p
          didLeaveOriginalNode := false } }, [])
    else
      .ok ({ s with dragState := some {
          id := id, dragging := ssd, start := p, last := p } }, [])
  | Event.mouseUpNode id p =>
    -- onMouseUpNode (780-796)
    match s.incompleteEdge with
    | some ie =>
      if ¬ isWithinFudgeFactor cfg p ie.start ∨ ie.didLeaveOriginalNode then
        .ok ({ s with shouldSkipNextNodeClick := some id, incompleteEdge := none },
          [Callback.onCreateEdgeEnd ie.source (lookupNode cfg.nodes id)])
      else
        .ok ({ s with incompleteEdge := none }, [])
    | none => .ok (s, [])
  | Event.mouseEnterNode id =>
    -- onMouseEnterNode (798-814)
    match s.incompleteEdge with
    | some ie =>
      .ok ({ s with incompleteEdge := some { ie with target := lookupNode cfg.nodes id } }, [])
    | none => .ok (s, [])
  | Event.mouseLeaveNode =>
    -- onMouseLeaveNode (816-827)
    match s.incompleteEdge with
    | some ie =>
      if ie.target ≠ none ∨ ie.didLeaveOriginalNode ≠ true then
        .ok ({ s with incompleteEdge := some {
            ie with target := none, didLeaveOriginalNode := true } }, [])
      else
        .ok (s, [])
    | none => .ok (s, [])
  | Event.clickNode id c =>
    -- onClickNodeWrapper (829-842); assertEqual throws on id mismatch
    match s.shouldSkipNextNodeClick with
    | some skipId =>
      if skipId = id then
        .ok ({ s with shouldSkipNextNodeClick := none }, [])
      else
        .error "assertion failure"
    | none =>
      .ok (s, [Callback.onClickNode id (lookupNode cfg.nodes id)
        (toWorldSpacePosition cfg s.transformPan c)])
  | Event.mouseMoveDocument p =>
    -- onMouseMoveDocument (867-895)
    let s1 := match s.dragState with
      | some ds => if ds.dragging then { s with dragState := some { ds with last := p } } else s
      | none => s
    let s2 := { s1 with incompleteEdge :=
      s1.incompleteEdge.map (fun (ie : EdgeCreateState) => { ie with last := p }) }
    let s3 := match s2.panState with
      | some ps =>
        if ps.panning then
          { s2 with
            transformPan :=
              { x := s2.transformPan.x + (p.screenX - ps.last.screenX) / cfg.scale
                y := s2.transformPan.y + (p.screenY - ps.last.screenY) / cfg.scale }
            panState := some { ps with last := p } }
        else s2
      | none => s2
    .ok (s3, [])
  | Event.mouseUpDocument p =>
    -- onMouseUpDocument (899-926)
    match s.dragState with
    | some ds =>
      if ¬ isWithinFudgeFactor cfg p ds.start then
        match lookupNode cfg.nodes ds.id with
        | some n =>
          let s1 := { s with shouldSkipNextNodeClick := some ds.id, dragState := none }
          let s2 := match s1.panState with
            | some ps =>
              { s1 with
                shouldSkipNextBackgroundClick := ¬ isWithinFudgeFactor cfg p ps.start
                panState := none }
            | none => s1
          .ok ({ s2 with incompleteEdge := none },
            [Callback.onNodeDragEnd ds.id n
              { x := (p.screenX - ds.start.screenX) / cfg.scale + n.x
                y := (p.screenY - ds.start.screenY) / cfg.scale + n.y }])
        | none =>
          -- reading `node.x` off an undefined lookup throws
          .error "TypeError"
      else
        let s1 := { s with dragState := none }
        let s2 := match s1.panState with
          | some ps =>
            { s1 with
              shouldSkipNextBackgroundClick := ¬ isWithinFudgeFactor cfg p ps.start
              panState := none }
          | none => s1
        .ok ({ s2 with incompleteEdge := none }, [])
    | none =>
      let s2 := match s.panState with
        | some ps =>
          { s with
            shouldSkipNextBackgroundClick := ¬ isWithinFudgeFactor cfg p ps.start
            panState := none }
        | none => s
      .ok ({ s2 with incompleteEdge := none }, [])

/-- Run a sequence of events, accumulating the fired callbacks; stops at the
first thrown exception. -/
def runE (cfg : Config) : GraphState → List Event → Except String (GraphState × List Callback)
  | s, [] => .ok (s, [])
  | s, e :: rest =>
    match stepE cfg s e with
    | .error msg => .error msg
    | .ok (s', cbs) =>
      match runE cfg s' rest with
      | .error msg => .error msg
      | .ok (s'', cbs') => .ok (s'', cbs ++ cbs')

/-! ## Render loops

Rendering is embedded as the computation of the list of node ids / edge ids
whose containers are emitted for the frame.  Two revisions are embedded:
the hooks-based Graph.tsx render (lines 1013-1094), and the
`DraggingSubgraph`-based revision (part_005 lines 242-311 together with
DraggingSubgraph.tsx), which is the revision that exempts the in-gesture
node from culling. -/

/-- The live drag displacement applied to a node mid-drag (Graph.tsx lines
1023-1038 and 1066-1074). -/
def displaceNode (scale : ℚ) (ds : NodeDragState) (n : Node) : Node :=
  { n with
    x := (ds.last.screenX - ds.start.screenX) / scale + n.x
    y := (ds.last.screenY - ds.start.screenY) / scale + n.y }

/-- The per-edge body of the edge render loop (Graph.tsx lines 1013-1049):
skip when either endpoint fails to resolve, apply the live drag displacement,
then cull against the bounds. -/
def renderEdgeV2 (nodes : List Node) (dragState : Option NodeDragState) (scale : ℚ)
    (bounds : Bounds) (e : Edge) : Option String :=
  match lookupNode nodes e.sourceId, lookupNode nodes e.targetId with
  | some source, some target =>
    let source := match dragState with
      | some ds => if ds.id = source.id then displaceNode scale ds source else source
      | none => source
    let target := match dragState with
      | some ds => if ds.id = target.id then displaceNode scale ds target else target
      | none => target
    if bounds.containsEdge source target then some e.id else none
  | _, _ => none

/-- The edge ids rendered by the hooks-based render (Graph.tsx lines
1013-1049). -/
def renderedEdgeIdsV2 (nodes : List Node) (edges : List Edge) (dragState : Option NodeDragState)
    (scale : ℚ) (bounds : Bounds) : List String :=
  edges.filterMap (renderEdgeV2 nodes dragState scale bounds)

/-- The node ids rendered by the hooks-based render (Graph.tsx lines
1066-1094): culling tests the undisplaced node. -/
def renderedNodeIdsV2 (nodes : List Node) (bounds : Bounds) : List String :=
  nodes.filterMap (fun n => if bounds.containsNode n then some n.id else none)

/-- `NodeDragState` of the part_005 revision (lines 132-136): the dragged
node id and the ids of its incident edges, captured at mouse-down. -/
structure DragStateP5 where
  nodeId : String
  edgeIds : List String
  start : ScreenPosition
  deriving DecidableEq, Repr

/-- The node ids rendered by the part_005 revision (lines 292-306 plus the
`DraggingSubgraph`, which always emits the dragged node's container): the
main loop skips the dragged node and culls against the bounds; the dragging
subgraph renders the dragged node unconditionally. -/
def renderedNodeIdsP5 (nodes : List Node) (bounds : Bounds) (dragState : Option DragStateP5) :
    List String :=
  (nodes.filterMap (fun n =>
    if (dragState.any fun d => d.nodeId == n.id) || !(bounds.containsNode n) then none
    else some n.id)) ++
  (match dragState with | some d => [d.nodeId] | none => [])

/-- The edge ids rendered by the part_005 revision (lines 242-270 plus the
`DraggingSubgraph`, which renders every edge id it is given
unconditionally): the main loop skips the dragged node's incident edges,
skips dangling edges, and culls against the bounds. -/
def renderedEdgeIdsP5 (nodes : List Node) (edges : List Edge) (bounds : Bounds)
    (dragState : Option DragStateP5) : List String :=
  (edges.filterMap (fun e =>
    if dragState.any fun d => d.edgeIds.contains e.id then none
    else match lookupNode nodes e.sourceId, lookupNode nodes e.targetId with
      | some source, some target =>
        if bounds.containsEdge source target then some e.id else none
      | _, _ => none)) ++
  (match dragState with | some d => d.edgeIds | none => [])

/-- The `edgeIds` captured by part_005's `_onMouseDownNode` (lines 455-457):
the edges incident to the pressed node. -/
def incidentEdgeIds (edges : List Edge) (id : String) : List String :=
  (edges.filter (fun e => e.sourceId == id || e.targetId == id)).map Edge.id

/-! ## Gesture trace helpers -/

/-- The events that can occur strictly inside an active edge-create gesture
(between the node mouse-down and the ending mouse-up): document mouse-moves
and node hit-region enters/leaves. -/
def isGestureMid : Event → Bool
  | Event.mouseMoveDocument _ => true
  | Event.mouseEnterNode _ => true
  | Event.mouseLeaveNode => true
  | _ => false

/-- Whether an event list contains a node mouse-leave. -/
def hasLeave (ms : List Event) : Bool :=
  ms.any (fun e => e == Event.mouseLeaveNode)

/-! # Theorems -/

/-! ## C6: auto routing direction -/

/-- C6: for the non-straight path types (right-angle, three-segment,
bezier) with preferred direction `auto`, `pathD` routes horizontal-first
exactly when the absolute horizontal displacement exceeds the absolute
vertical displacement, and vertical-first otherwise; for the straight path
type the direction parameter has no effect on the result. -/
theorem pathD_autoDirection_routing (s t : Position) :
    (∀ pt : PathType, pt ≠ PathType.STRAIGHT →
      ((|t.x - s.x| > |t.y - s.y| →
        pathD s t pt PathDirection.AUTO = pathD s t pt PathDirection.HORIZONTAL_FIRST) ∧
       (¬ |t.x - s.x| > |t.y - s.y| →
        pathD s t pt PathDirection.AUTO = pathD s t pt PathDirection.VERTICAL_FIRST))) ∧
    (∀ d d' : PathDirection,
      pathD s t PathType.STRAIGHT d = pathD s t PathType.STRAIGHT d') := by
  refine ⟨fun pt hpt => ⟨fun h => ?_, fun h => ?_⟩, fun d d' => ?_⟩
  · cases pt <;> simp [pathD, _getAutoDirection, h]
  · cases pt <;> simp [pathD, _getAutoDirection, h]
  · simp [pathD]

/-- Witness for C6 at a concrete input: from (0,0) to (3,1) the horizontal
displacement dominates, so `auto` routing agrees with horizontal-first for
the right-angle path type. -/
theorem pathD_autoDirection_routing_witness :
    pathD ⟨0, 0⟩ ⟨3, 1⟩ PathType.RIGHT PathDirection.AUTO =
      pathD ⟨0, 0⟩ ⟨3, 1⟩ PathType.RIGHT PathDirection.HORIZONTAL_FIRST :=
  ((pathD_autoDirection_routing ⟨0, 0⟩ ⟨3, 1⟩).1 PathType.RIGHT (by decide)).1 (by norm_num)

/-! ## C10: strict containment at the bounds boundary -/

/-- C10: viewport containment uses strict inequalities on every side:
a node whose bounding box only touches the bounds boundary (for example its
right edge coincides with the bounds' left edge) is not contained, likewise
an edge whose endpoint rectangle only touches the bounds, and a zero-width,
zero-height node lying on the boundary line is never contained. -/
theorem bounds_tangent_is_culled (b : Bounds) (n n1 n2 : Node) :
    ((n.x + n.width / 2 = b.minX ∨ n.x - n.width / 2 = b.maxX ∨
      n.y + n.height / 2 = b.minY ∨ n.y - n.height / 2 = b.maxY) →
      b.containsNode n = false) ∧
    ((max n1.x n2.x = b.minX ∨ min n1.x n2.x = b.maxX ∨
      max n1.y n2.y = b.minY ∨ min n1.y n2.y = b.maxY) →
      b.containsEdge n1 n2 = false) ∧
    (n.width = 0 → n.height = 0 →
      (n.x = b.minX ∨ n.x = b.maxX ∨ n.y = b.minY ∨ n.y = b.maxY) →
      b.containsNode n = false) := by
  have hover : ∀ mnX mxX mnY mxY : ℚ,
      (mxX = b.minX ∨ mnX = b.maxX ∨ mxY = b.minY ∨ mnY = b.maxY) →
      b._overlaps mnX mxX mnY mxY = false := by
    intro mnX mxX mnY mxY h
    unfold Bounds._overlaps
    rcases h with h | h | h | h <;> simp [h]
  refine ⟨fun h => ?_, fun h => ?_, fun hw hh h => ?_⟩
  · unfold Bounds.containsNode
    apply hover
    rcases h with h | h | h | h
    · exact Or.inl h
    · exact Or.inr (Or.inl h)
    · exact Or.inr (Or.inr (Or.inl h))
    · exact Or.inr (Or.inr (Or.inr h))
  · exact hover _ _ _ _ h
  · unfold Bounds.containsNode
    apply hover
    rw [hw, hh]
    rcases h with h | h | h | h
    · exact Or.inl (by rw [h]; ring)
    · exact Or.inr (Or.inl (by rw [h]; ring))
    · exact Or.inr (Or.inr (Or.inl (by rw [h]; ring)))
    · exact Or.inr (Or.inr (Or.inr (by rw [h]; ring)))

/-- Witness for C10 at concrete inputs: with bounds [0,10]×[0,10], a 2×2
node centered at (-1,5) touches the left boundary and is culled; an edge
whose endpoints are (-3,2) and (0,5) touches it and is culled; the
zero-size node at (0,5) sits on the boundary line and is culled. -/
theorem bounds_tangent_is_culled_witness :
    (Bounds.containsNode ⟨0, 10, 0, 10⟩ ⟨"n", -1, 5, 2, 2⟩ = false) ∧
    (Bounds.containsEdge ⟨0, 10, 0, 10⟩ ⟨"a", -3, 2, 1, 1⟩ ⟨"b", 0, 5, 1, 1⟩ = false) ∧
    (Bounds.containsNode ⟨0, 10, 0, 10⟩ ⟨"z", 0, 5, 0, 0⟩ = false) := by
  obtain ⟨h1, h2, -⟩ :=
    bounds_tangent_is_culled ⟨0, 10, 0, 10⟩ ⟨"n", -1, 5, 2, 2⟩ ⟨"a", -3, 2, 1, 1⟩ ⟨"b", 0, 5, 1, 1⟩
  obtain ⟨-, -, h3⟩ :=
    bounds_tangent_is_culled ⟨0, 10, 0, 10⟩ ⟨"z", 0, 5, 0, 0⟩ ⟨"a", -3, 2, 1, 1⟩ ⟨"b", 0, 5, 1, 1⟩
  exact ⟨h1 (by norm_num), h2 (by norm_num), h3 rfl rfl (by norm_num)⟩

/-! ## C8: selection-set operations -/

/-- Counterexample to C8 as stated: `reset` notifies unconditionally, so
from the state whose selection is exactly {"n2"}, `reset("n2")` leaves the
membership unchanged yet fires a change notification — refuting "every
mutation that would not change membership fires no notification". -/
theorem selectionSet_reset_notifies_without_change :
    ((SelectionSet.reset ⟨{"n2"}, 0⟩ (some "n2")).members =
      (SelectionSet.mk {"n2"} 0).members) ∧
    (SelectionSet.reset ⟨{"n2"}, 0⟩ (some "n2")).nonce ≠ (SelectionSet.mk {"n2"} 0).nonce := by
  constructor
  · rfl
  · simp [SelectionSet.reset]

/-- C8 (amended): `add` of a present id and `remove` of an absent id change
nothing and fire no notification (in particular, from empty, adding "n1"
twice fires exactly one notification); `toggle` removes a present id and
adds an absent one; `reset(id)` leaves exactly {id} selected regardless of
prior state; `add` and `remove` never notify without a membership change —
but `reset` notifies unconditionally, so it fires a notification even when
the resulting membership equals the prior one. -/
theorem selectionSet_ops_spec :
    (∀ (s : SelectionSet) (id : String), id ∈ s.members → s.add id = s) ∧
    (∀ (s : SelectionSet) (id : String), id ∉ s.members → s.remove id = s) ∧
    (((⟨∅, 0⟩ : SelectionSet).add "n1").add "n1" = ⟨{"n1"}, 1⟩) ∧
    (∀ (s : SelectionSet) (id : String), id ∈ s.members →
      (s.toggle id).members = s.members.erase id) ∧
    (∀ (s : SelectionSet) (id : String), id ∉ s.members →
      (s.toggle id).members = insert id s.members) ∧
    (∀ (s : SelectionSet) (id : String), (s.reset (some id)).members = {id}) ∧
    (∀ (s : SelectionSet) (id : String), (s.reset (some id)).nonce = s.nonce + 1) := by
  refine ⟨fun s id h => ?_, fun s id h => ?_, ?_, fun s id h => ?_, fun s id h => ?_,
    fun s id => rfl, fun s id => rfl⟩
  · simp [SelectionSet.add, h]
  · simp [SelectionSet.remove, h]
  · simp [SelectionSet.add]
  · simp [SelectionSet.toggle, h]
  · simp [SelectionSet.toggle, h]

/-- Witness for C8 (amended) at concrete inputs, discharging each
membership hypothesis. -/
theorem selectionSet_ops_spec_witness :
    ((⟨{"a"}, 3⟩ : SelectionSet).add "a" = ⟨{"a"}, 3⟩) ∧
    ((⟨{"a"}, 3⟩ : SelectionSet).remove "b" = ⟨{"a"}, 3⟩) ∧
    ((⟨{"a"}, 3⟩ : SelectionSet).toggle "a").members = ({"a"} : Finset String).erase "a" ∧
    ((⟨{"a"}, 3⟩ : SelectionSet).toggle "b").members = insert "b" {"a"} ∧
    ((⟨{"a"}, 3⟩ : SelectionSet).reset (some "c")).members = {"c"} :=
  ⟨selectionSet_ops_spec.1 ⟨{"a"}, 3⟩ "a" (by decide),
   selectionSet_ops_spec.2.1 ⟨{"a"}, 3⟩ "b" (by decide),
   selectionSet_ops_spec.2.2.2.1 ⟨{"a"}, 3⟩ "a" (by decide),
   selectionSet_ops_spec.2.2.2.2.1 ⟨{"a"}, 3⟩ "b" (by decide),
   selectionSet_ops_spec.2.2.2.2.2.1 ⟨{"a"}, 3⟩ "c"⟩

/-! ## C7: dangling edges are skipped, everything else is unaffected -/

/-- The edge render loop body only ever emits the edge's own id, and only
when both endpoints resolve. -/
theorem renderEdgeV2_eq_some {nodes : List Node} {dragState : Option NodeDragState}
    {scale : ℚ} {bounds : Bounds} {e : Edge} {x : String}
    (h : renderEdgeV2 nodes dragState scale bounds e = some x) :
    x = e.id ∧ (lookupNode nodes e.sourceId).isSome ∧ (lookupNode nodes e.targetId).isSome := by
  unfold renderEdgeV2 at h
  cases hs : lookupNode nodes e.sourceId with
  | none => rw [hs] at h; simp at h
  | some s0 =>
    cases ht : lookupNode nodes e.targetId with
    | none => rw [hs, ht] at h; simp at h
    | some t0 =>
      rw [hs, ht] at h
      simp only [] at h
      split at h
      · simp at h; exact ⟨h.symm, rfl, rfl⟩
      · simp at h

/-- Removing the unresolvable edges from the collection leaves the rendered
edge list unchanged: the loop skips them anyway. -/
theorem filterMap_renderEdgeV2_filter (nodes : List Node) (dragState : Option NodeDragState)
    (scale : ℚ) (bounds : Bounds) (edges : List Edge) :
    List.filterMap (renderEdgeV2 nodes dragState scale bounds) edges =
      List.filterMap (renderEdgeV2 nodes dragState scale bounds)
        (edges.filter (fun e' => (lookupNode nodes e'.sourceId).isSome &&
          (lookupNode nodes e'.targetId).isSome)) := by
  induction edges with
  | nil => rfl
  | cons hd tl ih =>
    by_cases hres : ((lookupNode nodes hd.sourceId).isSome ∧
        (lookupNode nodes hd.targetId).isSome)
    · rw [List.filter_cons, if_pos (by simp [hres.1, hres.2])]
      simp only [List.filterMap_cons]
      cases hfe : renderEdgeV2 nodes dragState scale bounds hd <;> simp [ih]
    · have hnone : renderEdgeV2 nodes dragState scale bounds hd = none := by
        unfold renderEdgeV2
        cases hs : lookupNode nodes hd.sourceId with
        | none => rfl
        | some s0 =>
          cases ht : lookupNode nodes hd.targetId with
          | none => rfl
          | some t0 => exact absurd ⟨by rw [hs]; rfl, by rw [ht]; rfl⟩ hres
      rw [List.filter_cons, if_neg (by simpa using fun a b => hres ⟨a, b⟩)]
      simp only [List.filterMap_cons, hnone]
      exact ih

/-- C7: an edge whose `sourceId` or `targetId` does not resolve to a node
in the current node collection is omitted from the rendered edge list for
the frame (the loop body is a total function — there is no exception), and
the rendered edge list is exactly the one obtained from the edge collection
with all unresolvable edges removed, so every other edge is unaffected (the
node render loop does not read the edge collection at all). -/
theorem dangling_edge_is_omitted (nodes : List Node) (edges : List Edge)
    (dragState : Option NodeDragState) (scale : ℚ) (bounds : Bounds) (e : Edge)
    (hnodup : (edges.map Edge.id).Nodup) (he : e ∈ edges)
    (hdangle : lookupNode nodes e.sourceId = none ∨ lookupNode nodes e.targetId = none) :
    e.id ∉ renderedEdgeIdsV2 nodes edges dragState scale bounds ∧
    renderedEdgeIdsV2 nodes edges dragState scale bounds =
      renderedEdgeIdsV2 nodes
        (edges.filter (fun e' => (lookupNode nodes e'.sourceId).isSome &&
          (lookupNode nodes e'.targetId).isSome)) dragState scale bounds := by
  constructor
  · intro hmem
    rw [renderedEdgeIdsV2, List.mem_filterMap] at hmem
    obtain ⟨e', he', hfe⟩ := hmem
    obtain ⟨hid, hsrc, htgt⟩ := renderEdgeV2_eq_some hfe
    have hee : e' = e := List.inj_on_of_nodup_map hnodup he' he hid.symm
    rw [hee] at hsrc htgt
    rcases hdangle with h | h
    · rw [h] at hsrc; simp at hsrc
    · rw [h] at htgt; simp at htgt
  · exact filterMap_renderEdgeV2_filter nodes dragState scale bounds edges

/-- Witness for C7 at a concrete input: one node "n1", one well-formed
self-edge "e0" and one edge "e1" whose target "ghost" does not resolve;
"e1" is omitted and the rendered list equals the one for the collection
without "e1". -/
theorem dangling_edge_is_omitted_witness :
    ("e1" ∉ renderedEdgeIdsV2 [⟨"n1", 0, 0, 1, 1⟩]
        [⟨"e0", "n1", "n1"⟩, ⟨"e1", "n1", "ghost"⟩] none 1 ⟨-10, 10, -10, 10⟩) ∧
    renderedEdgeIdsV2 [⟨"n1", 0, 0, 1, 1⟩]
        [⟨"e0", "n1", "n1"⟩, ⟨"e1", "n1", "ghost"⟩] none 1 ⟨-10, 10, -10, 10⟩ =
      renderedEdgeIdsV2 [⟨"n1", 0, 0, 1, 1⟩]
        ([⟨"e0", "n1", "n1"⟩, ⟨"e1", "n1", "ghost"⟩].filter (fun e' =>
          (lookupNode [⟨"n1", 0, 0, 1, 1⟩] e'.sourceId).isSome &&
          (lookupNode [⟨"n1", 0, 0, 1, 1⟩] e'.targetId).isSome)) none 1 ⟨-10, 10, -10, 10⟩ :=
  dangling_edge_is_omitted [⟨"n1", 0, 0, 1, 1⟩]
    [⟨"e0", "n1", "n1"⟩, ⟨"e1", "n1", "ghost"⟩] none 1 ⟨-10, 10, -10, 10⟩
    ⟨"e1", "n1", "ghost"⟩ (by decide) (by decide) (Or.inr (by decide))

/-! ## C5: viewport culling and the in-gesture exemption (part_005 renderer) -/

/-- Counterexample to C5 as stated: in the revision that exempts the
in-gesture node from culling (part_005 with `DraggingSubgraph`), the
dragged node's incident edges are rendered unconditionally as well.  With
bounds [0,10]×[0,10], the edge "e1" between the dragged node "n1" (at
(100,100)) and "n2" (at (200,200)) has an endpoint rectangle that does not
intersect the bounds, yet it is in the rendered edge list — refuting "an
edge whose endpoints' bounding rectangle does not intersect the bounds is
excluded from the rendered edge list". -/
theorem dragAdjacent_edge_rendered_despite_cull :
    (Bounds.containsEdge ⟨0, 10, 0, 10⟩ ⟨"n1", 100, 100, 2, 2⟩ ⟨"n2", 200, 200, 2, 2⟩
      = false) ∧
    ("e1" ∈ renderedEdgeIdsP5 [⟨"n1", 100, 100, 2, 2⟩, ⟨"n2", 200, 200, 2, 2⟩]
      [⟨"e1", "n1", "n2"⟩] ⟨0, 10, 0, 10⟩
      (some ⟨"n1", incidentEdgeIds [⟨"e1", "n1", "n2"⟩] "n1", ⟨0, 0⟩⟩)) := by
  constructor
  · simp [Bounds.containsEdge, Bounds._overlaps]
    norm_num
  · simp [renderedEdgeIdsP5, incidentEdgeIds]

/-- C5 (amended): in every rendered frame of the part_005 renderer, a node
whose bounding box does not intersect the bounds and that is not mid-drag
is excluded from the rendered node list; the mid-drag node is rendered
regardless of whether its box intersects the bounds; an edge that is not
incident to the mid-drag node and whose endpoints' bounding rectangle does
not intersect the bounds is excluded from the rendered edge list; and the
mid-drag node's incident edges are, like the node itself, rendered
regardless of the bounds. -/
theorem renderP5_culling (nodes : List Node) (edges : List Edge) (bounds : Bounds)
    (drag : Option DragStateP5) :
    (∀ n ∈ nodes, (nodes.map Node.id).Nodup →
      (∀ d, drag = some d → d.nodeId ≠ n.id) →
      bounds.containsNode n = false →
      n.id ∉ renderedNodeIdsP5 nodes bounds drag) ∧
    (∀ d, drag = some d → d.nodeId ∈ renderedNodeIdsP5 nodes bounds drag) ∧
    (∀ e ∈ edges, (edges.map Edge.id).Nodup →
      (∀ d, drag = some d → e.id ∉ d.edgeIds) →
      (∀ s t, lookupNode nodes e.sourceId = some s → lookupNode nodes e.targetId = some t →
        bounds.containsEdge s t = false) →
      e.id ∉ renderedEdgeIdsP5 nodes edges bounds drag) ∧
    (∀ d, drag = some d → ∀ eid ∈ d.edgeIds, eid ∈ renderedEdgeIdsP5 nodes edges bounds drag) := by
  refine ⟨?_, ?_, ?_, ?_⟩
  · intro n hn hnodup hdrag hcull hmem
    unfold renderedNodeIdsP5 at hmem
    rw [List.mem_append] at hmem
    rcases hmem with hmem | hmem
    · rw [List.mem_filterMap] at hmem
      obtain ⟨n', hn', hif⟩ := hmem
      split at hif
      · exact absurd hif (by simp)
      · next hc =>
        simp only [Option.some.injEq] at hif
        have hnn : n' = n := List.inj_on_of_nodup_map hnodup hn' hn hif
        rw [hnn, hcull] at hc
        simp at hc
    · cases hd : drag with
      | none => rw [hd] at hmem; simp at hmem
      | some d =>
        rw [hd] at hmem
        simp only [List.mem_singleton] at hmem
        exact hdrag d hd hmem.symm
  · intro d hd
    subst hd
    unfold renderedNodeIdsP5
    rw [List.mem_append]
    right
    simp
  · intro e he hnodup hdrag hcull hmem
    unfold renderedEdgeIdsP5 at hmem
    rw [List.mem_append] at hmem
    rcases hmem with hmem | hmem
    · rw [List.mem_filterMap] at hmem
      obtain ⟨e', he', hif⟩ := hmem
      split at hif
      · exact absurd hif (by simp)
      · cases hs : lookupNode nodes e'.sourceId with
        | none => rw [hs] at hif; simp at hif
        | some s =>
          cases ht : lookupNode nodes e'.targetId with
          | none => rw [hs, ht] at hif; simp at hif
          | some t =>
            rw [hs, ht] at hif
            simp only [] at hif
            split at hif
            · next hcont =>
              simp only [Option.some.injEq] at hif
              have hee : e' = e := List.inj_on_of_nodup_map hnodup he' he hif
              rw [hee] at hs ht
              rw [hcull s t hs ht] at hcont
              simp at hcont
            · exact absurd hif (by simp)
    · cases hd : drag with
      | none => rw [hd] at hmem; simp at hmem
      | some d =>
        rw [hd] at hmem
        exact hdrag d hd hmem
  · intro d hd eid heid
    subst hd
    unfold renderedEdgeIdsP5
    rw [List.mem_append]
    right
    simpa using heid

/-- Witness for C5 (amended) at a concrete scene: bounds [0,10]×[0,10],
nodes "n1" (100,100, dragged), "n2" (200,200), "n3" (300,300), edges "e1"
(n1→n2, incident to the drag) and "e2" (n2→n3). -/
theorem renderP5_culling_witness :
    ("n3" ∉ renderedNodeIdsP5
      [⟨"n1", 100, 100, 2, 2⟩, ⟨"n2", 200, 200, 2, 2⟩, ⟨"n3", 300, 300, 2, 2⟩]
      ⟨0, 10, 0, 10⟩ (some ⟨"n1", ["e1"], ⟨0, 0⟩⟩)) ∧
    ("n1" ∈ renderedNodeIdsP5
      [⟨"n1", 100, 100, 2, 2⟩, ⟨"n2", 200, 200, 2, 2⟩, ⟨"n3", 300, 300, 2, 2⟩]
      ⟨0, 10, 0, 10⟩ (some ⟨"n1", ["e1"], ⟨0, 0⟩⟩)) ∧
    ("e2" ∉ renderedEdgeIdsP5
      [⟨"n1", 100, 100, 2, 2⟩, ⟨"n2", 200, 200, 2, 2⟩, ⟨"n3", 300, 300, 2, 2⟩]
      [⟨"e1", "n1", "n2"⟩, ⟨"e2", "n2", "n3"⟩] ⟨0, 10, 0, 10⟩
      (some ⟨"n1", ["e1"], ⟨0, 0⟩⟩)) ∧
    ("e1" ∈ renderedEdgeIdsP5
      [⟨"n1", 100, 100, 2, 2⟩, ⟨"n2", 200, 200, 2, 2⟩, ⟨"n3", 300, 300, 2, 2⟩]
      [⟨"e1", "n1", "n2"⟩, ⟨"e2", "n2", "n3"⟩] ⟨0, 10, 0, 10⟩
      (some ⟨"n1", ["e1"], ⟨0, 0⟩⟩)) := by
  obtain ⟨h1, h2, h3, h4⟩ := renderP5_culling
    [⟨"n1", 100, 100, 2, 2⟩, ⟨"n2", 200, 200, 2, 2⟩, ⟨"n3", 300, 300, 2, 2⟩]
    [⟨"e1", "n1", "n2"⟩, ⟨"e2", "n2", "n3"⟩] ⟨0, 10, 0, 10⟩
    (some ⟨"n1", ["e1"], ⟨0, 0⟩⟩)
  refine ⟨?_, ?_, ?_, ?_⟩
  · exact h1 ⟨"n3", 300, 300, 2, 2⟩ (by simp) (by simp)
      (by intro d hd; cases hd; decide)
      (by simp [Bounds.containsNode, Bounds._overlaps]; norm_num)
  · exact h2 ⟨"n1", ["e1"], ⟨0, 0⟩⟩ rfl
  · refine h3 ⟨"e2", "n2", "n3"⟩ (by simp) (by decide)
      (by intro d hd; cases hd; decide) ?_
    intro s t hs ht
    rw [show lookupNode
      [⟨"n1", 100, 100, 2, 2⟩, ⟨"n2", 200, 200, 2, 2⟩, ⟨"n3", 300, 300, 2, 2⟩] "n2"
      = some ⟨"n2", 200, 200, 2, 2⟩ from rfl] at hs
    rw [show lookupNode
      [⟨"n1", 100, 100, 2, 2⟩, ⟨"n2", 200, 200, 2, 2⟩, ⟨"n3", 300, 300, 2, 2⟩] "n3"
      = some ⟨"n3", 300, 300, 2, 2⟩ from rfl] at ht
    cases hs; cases ht
    simp [Bounds.containsEdge, Bounds._overlaps]
    norm_num
  · exact h4 ⟨"n1", ["e1"], ⟨0, 0⟩⟩ rfl "e1" (by decide)

/-! ## Gesture traces: shared lemmas -/

/-- A run splits at an append. -/
theorem runE_append (cfg : Config) (s : GraphState) (l1 l2 : List Event) :
    runE cfg s (l1 ++ l2) =
      match runE cfg s l1 with
      | .error m => .error m
      | .ok (s', cbs) =>
        match runE cfg s' l2 with
        | .error m => .error m
        | .ok (s'', cbs') => .ok (s'', cbs ++ cbs') := by
  induction l1 generalizing s with
  | nil =>
    cases h : runE cfg s l2 with
    | error m => simp [runE, h]
    | ok r => obtain ⟨s'', cbs'⟩ := r; simp [runE, h]
  | cons e rest ih =>
    rw [List.cons_append]
    cases hstep : stepE cfg s e with
    | error m => simp [runE, hstep]
    | ok p =>
      obtain ⟨s1, cbs1⟩ := p
      simp only [runE, hstep]
      rw [ih]
      cases h1 : runE cfg s1 rest with
      | error m => simp [h1]
      | ok q =>
        obtain ⟨s2, cbs2⟩ := q
        cases h2 : runE cfg s2 l2 with
        | error m => simp [h1, h2]
        | ok r =>
          obtain ⟨s3, cbs3⟩ := r
          simp [h1, h2, List.append_assoc]

/-- Document mouse-moves during a node gesture (no pan, no edge-create in
flight) fire nothing and only advance the drag state's last-seen
position. -/
theorem runE_moves_drag (cfg : Config) (ms : List ScreenPosition) :
    ∀ (pan : Position) (di : String) (dr : Bool) (dst dl : ScreenPosition)
      (skn : Option String) (skb : Bool),
    ∃ l', runE cfg ⟨pan, none, some ⟨di, dr, dst, dl⟩, none, skn, skb⟩
        (ms.map Event.mouseMoveDocument) =
      .ok (⟨pan, none, some ⟨di, dr, dst, l'⟩, none, skn, skb⟩, []) := by
  induction ms with
  | nil =>
    intro pan di dr dst dl skn skb
    exact ⟨dl, by simp [runE]⟩
  | cons p rest ih =>
    intro pan di dr dst dl skn skb
    cases dr with
    | false =>
      obtain ⟨l', hl'⟩ := ih pan di false dst dl skn skb
      exact ⟨l', by simp [runE, stepE, hl']⟩
    | true =>
      obtain ⟨l', hl'⟩ := ih pan di true dst p skn skb
      exact ⟨l', by simp [runE, stepE, hl']⟩

/-- Document mouse-moves during a background gesture (no drag, no
edge-create) fire nothing, advance the pan state's last-seen position, and
(when panning) shift the transform's pan. -/
theorem runE_moves_pan (cfg : Config) (ms : List ScreenPosition) :
    ∀ (pan : Position) (pp : Bool) (pst pl : ScreenPosition)
      (skn : Option String) (skb : Bool),
    ∃ pan' l', runE cfg ⟨pan, some ⟨pp, pst, pl⟩, none, none, skn, skb⟩
        (ms.map Event.mouseMoveDocument) =
      .ok (⟨pan', some ⟨pp, pst, l'⟩, none, none, skn, skb⟩, []) := by
  induction ms with
  | nil =>
    intro pan pp pst pl skn skb
    exact ⟨pan, pl, by simp [runE]⟩
  | cons p rest ih =>
    intro pan pp pst pl skn skb
    cases pp with
    | false =>
      obtain ⟨pan', l', hl'⟩ := ih pan false pst pl skn skb
      exact ⟨pan', l', by simp [runE, stepE, hl']⟩
    | true =>
      obtain ⟨pan', l', hl'⟩ := ih
        ⟨pan.x + (p.screenX - pl.screenX) / cfg.scale,
         pan.y + (p.screenY - pl.screenY) / cfg.scale⟩ true pst p skn skb
      exact ⟨pan', l', by simp [runE, stepE, hl']⟩

/-- Events strictly inside an edge-create gesture (moves, enters, leaves)
fire nothing, keep the gesture's source and origin, and leave
`didLeaveOriginalNode` equal to its old value or-ed with whether any leave
occurred. -/
theorem runE_gestureMid (cfg : Config) (ms : List Event)
    (hmid : ∀ e ∈ ms, isGestureMid e = true) :
    ∀ (pan : Position) (src tgt : Option Node) (est el : ScreenPosition)
      (dlv : Bool) (skn : Option String) (skb : Bool),
    ∃ tgt' l', runE cfg ⟨pan, none, none, some ⟨src, tgt, est, el, dlv⟩, skn, skb⟩ ms =
      .ok (⟨pan, none, none, some ⟨src, tgt', est, l', dlv || hasLeave ms⟩, skn, skb⟩, []) := by
  induction ms with
  | nil =>
    intro pan src tgt est el dlv skn skb
    exact ⟨tgt, el, by simp [runE, hasLeave]⟩
  | cons e rest ih =>
    intro pan src tgt est el dlv skn skb
    have hmidrest : ∀ x ∈ rest, isGestureMid x = true := fun x hx => hmid x (List.mem_cons_of_mem e hx)
    have hmide : isGestureMid e = true := hmid e (List.mem_cons_self e rest)
    cases e with
    | mouseMoveDocument p =>
      obtain ⟨tgt', l', hl'⟩ := ih hmidrest pan src tgt est p dlv skn skb
      refine ⟨tgt', l', ?_⟩
      have : hasLeave (Event.mouseMoveDocument p :: rest) = hasLeave rest := by
        simp [hasLeave]
      rw [this]
      simp [runE, stepE, hl']
    | mouseEnterNode nid =>
      obtain ⟨tgt', l', hl'⟩ := ih hmidrest pan src (lookupNode cfg.nodes nid) est el dlv skn skb
      refine ⟨tgt', l', ?_⟩
      have : hasLeave (Event.mouseEnterNode nid :: rest) = hasLeave rest := by
        simp [hasLeave]
      rw [this]
      simp [runE, stepE, hl']
    | mouseLeaveNode =>
      obtain ⟨tgt', l', hl'⟩ := ih hmidrest pan src none est el true skn skb
      refine ⟨tgt', l', ?_⟩
      have hhl : hasLeave (Event.mouseLeaveNode :: rest) = true := by
        simp [hasLeave]
      rw [hhl, Bool.or_true]
      by_cases hc : ((tgt ≠ none ∨ dlv ≠ true))
      · rw [show (true || hasLeave rest) = true from Bool.true_or _] at hl'
        simp only [runE, stepE]
        rw [if_pos hc]
        simp [hl']
      · push_neg at hc
        obtain ⟨htgt, hdlv⟩ := hc
        subst htgt; subst hdlv
        rw [show (true || hasLeave rest) = true from Bool.true_or _] at hl'
        simp only [runE, stepE]
        rw [if_neg (by simp)]
        simp [hl']
    | mouseDownBackground p sp => simp [isGestureMid] at hmide
    | clickBackground c => simp [isGestureMid] at hmide
    | mouseDownNode id p a b => simp [isGestureMid] at hmide
    | mouseUpNode id p => simp [isGestureMid] at hmide
    | clickNode id c => simp [isGestureMid] at hmide
    | mouseUpDocument p => simp [isGestureMid] at hmide

/-! ## C1: node-drag gesture vs. click disambiguation -/

/-- C1: for a node-drag gesture (mouse-down on node `i` with
`shouldStartCreateEdge` false and `shouldStartNodeDrag` true, any document
mouse-moves, release on the node, document mouse-up at `p1`, then the
native click): if the net screen displacement `p1 − p0` is within the
fudge factor in both axes, `onNodeDragEnd` does not fire and `onClickNode`
fires for the gesture; if it exceeds the fudge factor in either axis,
`onNodeDragEnd` fires with the final world-space position (node position
plus displacement divided by scale) and `onClickNode` does not fire —
in each case the displayed callback list is the gesture's entire output. -/
theorem nodeDrag_fudge_disambiguation (cfg : Config) (pan : Position) (i : String) (n : Node)
    (hn : lookupNode cfg.nodes i = some n) (p0 p1 : ScreenPosition)
    (ms : List ScreenPosition) (c : ClientPosition) :
    (isWithinFudgeFactor cfg p1 p0 →
      ∃ s', runE cfg (initialState pan)
          (Event.mouseDownNode i p0 false true ::
            (ms.map Event.mouseMoveDocument ++
              [Event.mouseUpNode i p1, Event.mouseUpDocument p1, Event.clickNode i c])) =
        .ok (s', [Callback.onClickNode i (some n) (toWorldSpacePosition cfg pan c)])) ∧
    (¬ isWithinFudgeFactor cfg p1 p0 →
      ∃ s', runE cfg (initialState pan)
          (Event.mouseDownNode i p0 false true ::
            (ms.map Event.mouseMoveDocument ++
              [Event.mouseUpNode i p1, Event.mouseUpDocument p1, Event.clickNode i c])) =
        .ok (s', [Callback.onNodeDragEnd i n
          ⟨(p1.screenX - p0.screenX) / cfg.scale + n.x,
           (p1.screenY - p0.screenY) / cfg.scale + n.y⟩])) := by
  obtain ⟨l', hl'⟩ := runE_moves_drag cfg ms pan i true p0 p0 none false
  constructor
  · intro h
    refine ⟨⟨pan, none, none, none, none, false⟩, ?_⟩
    simp only [runE, stepE, initialState, if_false, Bool.false_eq_true]
    rw [runE_append, hl']
    simp [runE, stepE, h, hn]
  · intro h
    refine ⟨⟨pan, none, none, none, none, false⟩, ?_⟩
    simp only [runE, stepE, initialState, if_false, Bool.false_eq_true]
    rw [runE_append, hl']
    simp [runE, stepE, h, hn]

/-- Witness for C1 at concrete inputs (fudge 2, scale 1): a 1-pixel release
yields a click and no drag-end; a 10-pixel release yields a drag-end at the
displaced position and no click. -/
theorem nodeDrag_fudge_disambiguation_witness :
    (∃ s', runE ⟨[⟨"n1", 5, 5, 10, 10⟩], 2, 1, 0, 0, 0, 0⟩ (initialState ⟨0, 0⟩)
        (Event.mouseDownNode "n1" ⟨0, 0⟩ false true ::
          ([⟨1, 1⟩].map Event.mouseMoveDocument ++
            [Event.mouseUpNode "n1" ⟨1, 1⟩, Event.mouseUpDocument ⟨1, 1⟩,
             Event.clickNode "n1" ⟨3, 3⟩])) =
      .ok (s', [Callback.onClickNode "n1" (some ⟨"n1", 5, 5, 10, 10⟩)
        (toWorldSpacePosition ⟨[⟨"n1", 5, 5, 10, 10⟩], 2, 1, 0, 0, 0, 0⟩ ⟨0, 0⟩ ⟨3, 3⟩)])) ∧
    (∃ s', runE ⟨[⟨"n1", 5, 5, 10, 10⟩], 2, 1, 0, 0, 0, 0⟩ (initialState ⟨0, 0⟩)
        (Event.mouseDownNode "n1" ⟨0, 0⟩ false true ::
          ([⟨10, 10⟩].map Event.mouseMoveDocument ++
            [Event.mouseUpNode "n1" ⟨10, 10⟩, Event.mouseUpDocument ⟨10, 10⟩,
             Event.clickNode "n1" ⟨3, 3⟩])) =
      .ok (s', [Callback.onNodeDragEnd "n1" ⟨"n1", 5, 5, 10, 10⟩
        ⟨(10 - 0) / 1 + 5, (10 - 0) / 1 + 5⟩])) := by
  constructor
  · exact (nodeDrag_fudge_disambiguation ⟨[⟨"n1", 5, 5, 10, 10⟩], 2, 1, 0, 0, 0, 0⟩ ⟨0, 0⟩
      "n1" ⟨"n1", 5, 5, 10, 10⟩ rfl ⟨0, 0⟩ ⟨1, 1⟩ [⟨1, 1⟩] ⟨3, 3⟩).1
      (by constructor <;> norm_num [isWithinFudgeFactor])
  · exact (nodeDrag_fudge_disambiguation ⟨[⟨"n1", 5, 5, 10, 10⟩], 2, 1, 0, 0, 0, 0⟩ ⟨0, 0⟩
      "n1" ⟨"n1", 5, 5, 10, 10⟩ rfl ⟨0, 0⟩ ⟨10, 10⟩ [⟨10, 10⟩] ⟨3, 3⟩).2
      (by norm_num [isWithinFudgeFactor])

/-! ## C4: background pan vs. background click -/

/-- C4: for a background gesture (mouse-down on the background, any
document mouse-moves, document mouse-up at `p1`, then the native background
click): if the net screen displacement `p1 − p0` exceeds the fudge factor
in either axis, the click is suppressed and `onClickBackground` does not
fire (the gesture's whole output is empty); if it is within the fudge
factor in both axes, `onClickBackground` fires with the pointer position
inverse-transformed through the current pan and scale. -/
theorem backgroundPan_click_disambiguation (cfg : Config) (pan : Position) (sp : Bool)
    (p0 p1 : ScreenPosition) (ms : List ScreenPosition) (c : ClientPosition) :
    (isWithinFudgeFactor cfg p1 p0 →
      ∃ s', runE cfg (initialState pan)
          (Event.mouseDownBackground p0 sp ::
            (ms.map Event.mouseMoveDocument ++
              [Event.mouseUpDocument p1, Event.clickBackground c])) =
        .ok (s', [Callback.onClickBackground (toWorldSpacePosition cfg s'.transformPan c)])) ∧
    (¬ isWithinFudgeFactor cfg p1 p0 →
      ∃ s', runE cfg (initialState pan)
          (Event.mouseDownBackground p0 sp ::
            (ms.map Event.mouseMoveDocument ++
              [Event.mouseUpDocument p1, Event.clickBackground c])) =
        .ok (s', [])) := by
  obtain ⟨pan', l', hl'⟩ := runE_moves_pan cfg ms pan sp p0 p0 none false
  constructor
  · intro h
    refine ⟨⟨pan', none, none, none, none, false⟩, ?_⟩
    simp only [runE, stepE, initialState]
    rw [runE_append, hl']
    simp [runE, stepE, h]
  · intro h
    refine ⟨⟨pan', none, none, none, none, false⟩, ?_⟩
    simp only [runE, stepE, initialState]
    rw [runE_append, hl']
    simp [runE, stepE, h]

/-- Witness for C4 at concrete inputs (fudge 2, scale 1, panning, one 10px
move): the suppressed release produces no callback; a 1px release fires
the background click at the inverse-transformed pointer position. -/
theorem backgroundPan_click_disambiguation_witness :
    (∃ s', runE ⟨[], 2, 1, 0, 0, 0, 0⟩ (initialState ⟨0, 0⟩)
        (Event.mouseDownBackground ⟨0, 0⟩ true ::
          ([⟨1, 1⟩].map Event.mouseMoveDocument ++
            [Event.mouseUpDocument ⟨1, 1⟩, Event.clickBackground ⟨7, 9⟩])) =
      .ok (s', [Callback.onClickBackground
        (toWorldSpacePosition ⟨[], 2, 1, 0, 0, 0, 0⟩ s'.transformPan ⟨7, 9⟩)])) ∧
    (∃ s', runE ⟨[], 2, 1, 0, 0, 0, 0⟩ (initialState ⟨0, 0⟩)
        (Event.mouseDownBackground ⟨0, 0⟩ true ::
          ([⟨10, 10⟩].map Event.mouseMoveDocument ++
            [Event.mouseUpDocument ⟨10, 10⟩, Event.clickBackground ⟨7, 9⟩])) =
      .ok (s', [])) :=
  ⟨(backgroundPan_click_disambiguation ⟨[], 2, 1, 0, 0, 0, 0⟩ ⟨0, 0⟩ true
      ⟨0, 0⟩ ⟨1, 1⟩ [⟨1, 1⟩] ⟨7, 9⟩).1
      (by constructor <;> norm_num [isWithinFudgeFactor]),
   (backgroundPan_click_disambiguation ⟨[], 2, 1, 0, 0, 0, 0⟩ ⟨0, 0⟩ true
      ⟨0, 0⟩ ⟨10, 10⟩ [⟨10, 10⟩] ⟨7, 9⟩).2
      (by norm_num [isWithinFudgeFactor])⟩

/-! ## C2: edge-create gesture completion -/

/-- C2: for an edge-create gesture from node `a` (mouse-down qualifying via
`shouldStartCreateEdge`, then any sequence of in-gesture events — document
moves, node enters, node leaves): releasing over a node `t` fires
`onCreateEdgeEnd` exactly once with source `a`'s node and target `t`'s node
precisely when a leave occurred (`didLeaveOriginalNode`) or the release
exceeds the fudge factor from the gesture origin — so leaving `a` and
releasing back on `a` fires the self-edge callback, while a press-release
within the fudge factor that never left fires nothing; and a document
mouse-up not landing on any node discards the gesture with no callback at
all. -/
theorem createEdgeEnd_conditions (cfg : Config) (pan : Position) (a t : String)
    (p0 p1 : ScreenPosition) (ms : List Event)
    (hmid : ∀ e ∈ ms, isGestureMid e = true) :
    ((hasLeave ms = true ∨ ¬ isWithinFudgeFactor cfg p1 p0) →
      ∃ s', runE cfg (initialState pan)
          (Event.mouseDownNode a p0 true false ::
            (ms ++ [Event.mouseUpNode t p1, Event.mouseUpDocument p1])) =
        .ok (s', [Callback.onCreateEdgeEnd (lookupNode cfg.nodes a)
          (lookupNode cfg.nodes t)])) ∧
    ((hasLeave ms = false ∧ isWithinFudgeFactor cfg p1 p0) →
      ∃ s', runE cfg (initialState pan)
          (Event.mouseDownNode a p0 true false ::
            (ms ++ [Event.mouseUpNode t p1, Event.mouseUpDocument p1])) =
        .ok (s', [])) ∧
    (∃ s', runE cfg (initialState pan)
        (Event.mouseDownNode a p0 true false :: (ms ++ [Event.mouseUpDocument p1])) =
      .ok (s', [])) := by
  obtain ⟨tgt', l', hmids⟩ := runE_gestureMid cfg ms hmid pan
    (lookupNode cfg.nodes a) none p0 p0 false none false
  rw [Bool.false_or] at hmids
  refine ⟨fun h => ?_, fun h => ?_, ?_⟩
  · refine ⟨⟨pan, none, none, none, some t, false⟩, ?_⟩
    simp only [runE, stepE, initialState, if_true]
    rw [runE_append, hmids]
    have hcond : ¬ isWithinFudgeFactor cfg p1 p0 ∨ (hasLeave ms = true) :=
      h.elim Or.inr Or.inl
    simp [runE, stepE, hcond]
  · refine ⟨⟨pan, none, none, none, none, false⟩, ?_⟩
    simp only [runE, stepE, initialState, if_true]
    rw [runE_append, hmids]
    have hcond : ¬ (¬ isWithinFudgeFactor cfg p1 p0 ∨ (hasLeave ms = true)) := by
      simp [h.1, h.2]
    simp [runE, stepE, hcond, h.1, h.2]
  · refine ⟨⟨pan, none, none, none, none, false⟩, ?_⟩
    simp only [runE, stepE, initialState, if_true]
    rw [runE_append, hmids]
    simp [runE, stepE]

/-- Witness for C2 at concrete inputs (fudge 2): leaving "a" and releasing
back on "a" at the origin fires the self-edge callback exactly once; the
same release with no leave fires nothing; releasing over the background
after a leave fires nothing. -/
theorem createEdgeEnd_conditions_witness :
    (∃ s', runE ⟨[⟨"a", 0, 0, 1, 1⟩], 2, 1, 0, 0, 0, 0⟩ (initialState ⟨0, 0⟩)
        (Event.mouseDownNode "a" ⟨0, 0⟩ true false ::
          ([Event.mouseLeaveNode, Event.mouseEnterNode "a"] ++
            [Event.mouseUpNode "a" ⟨0, 0⟩, Event.mouseUpDocument ⟨0, 0⟩])) =
      .ok (s', [Callback.onCreateEdgeEnd (some ⟨"a", 0, 0, 1, 1⟩)
        (some ⟨"a", 0, 0, 1, 1⟩)])) ∧
    (∃ s', runE ⟨[⟨"a", 0, 0, 1, 1⟩], 2, 1, 0, 0, 0, 0⟩ (initialState ⟨0, 0⟩)
        (Event.mouseDownNode "a" ⟨0, 0⟩ true false ::
          ([] ++ [Event.mouseUpNode "a" ⟨0, 0⟩, Event.mouseUpDocument ⟨0, 0⟩])) =
      .ok (s', [])) ∧
    (∃ s', runE ⟨[⟨"a", 0, 0, 1, 1⟩], 2, 1, 0, 0, 0, 0⟩ (initialState ⟨0, 0⟩)
        (Event.mouseDownNode "a" ⟨0, 0⟩ true false ::
          ([Event.mouseLeaveNode] ++ [Event.mouseUpDocument ⟨20, 20⟩])) =
      .ok (s', [])) := by
  refine ⟨?_, ?_, ?_⟩
  · have h := (createEdgeEnd_conditions ⟨[⟨"a", 0, 0, 1, 1⟩], 2, 1, 0, 0, 0, 0⟩ ⟨0, 0⟩
      "a" "a" ⟨0, 0⟩ ⟨0, 0⟩ [Event.mouseLeaveNode, Event.mouseEnterNode "a"]
      (by intro e he; fin_cases he <;> rfl)).1 (Or.inl rfl)
    simpa [lookupNode] using h
  · exact (createEdgeEnd_conditions ⟨[⟨"a", 0, 0, 1, 1⟩], 2, 1, 0, 0, 0, 0⟩ ⟨0, 0⟩
      "a" "a" ⟨0, 0⟩ ⟨0, 0⟩ [] (by intro e he; cases he)).2.1
      ⟨rfl, by constructor <;> norm_num [isWithinFudgeFactor]⟩
  · exact (createEdgeEnd_conditions ⟨[⟨"a", 0, 0, 1, 1⟩], 2, 1, 0, 0, 0, 0⟩ ⟨0, 0⟩
      "a" "a" ⟨0, 0⟩ ⟨20, 20⟩ [Event.mouseLeaveNode]
      (by intro e he; fin_cases he; rfl)).2.2

/-! ## C3: mouse-leave is permanent during an edge-create gesture -/

/-- A document mouse-move maps the edge-create slot's `last` position and
touches nothing else of the slot, whatever the drag and pan slots hold. -/
theorem stepE_move_incompleteEdge (cfg : Config) (s : GraphState) (p : ScreenPosition)
    {s' : GraphState} {cbs : List Callback}
    (h : stepE cfg s (Event.mouseMoveDocument p) = .ok (s', cbs)) :
    s'.incompleteEdge = s.incompleteEdge.map
      (fun (ie : EdgeCreateState) => { ie with last := p }) := by
  obtain ⟨pan, ps, dopt, iopt, skn, skb⟩ := s
  cases dopt with
  | none =>
    cases ps with
    | none =>
      simp [stepE] at h
      rw [← h.1]
    | some pp =>
      cases hpp : pp.panning
      · simp [stepE, hpp] at h
        rw [← h.1]
      · simp [stepE, hpp] at h
        rw [← h.1]
  | some ds =>
    cases hdr : ds.dragging
    all_goals cases ps with
    | none =>
      simp [stepE, hdr] at h
      rw [← h.1]
    | some pp =>
      cases hpp : pp.panning
      · simp [stepE, hdr, hpp] at h
        rw [← h.1]
      · simp [stepE, hdr, hpp] at h
        rw [← h.1]

/-- C3: during an active edge-create gesture, a node mouse-leave always
results in a hover target of `none` and `didLeaveOriginalNode = true`;
`didLeaveOriginalNode` never falls back from `true` under any in-gesture
event; and a second consecutive leave leaves the state exactly unchanged
and fires nothing. -/
theorem edgeCreate_leave_permanent (cfg : Config) (s : GraphState) (ie : EdgeCreateState) :
    (s.incompleteEdge = some ie →
      stepE cfg s Event.mouseLeaveNode =
        .ok ({ s with incompleteEdge := some {
          ie with target := none, didLeaveOriginalNode := true } }, [])) ∧
    (∀ ev, isGestureMid ev = true → s.incompleteEdge = some ie →
      ie.didLeaveOriginalNode = true →
      ∀ s' cbs ie', stepE cfg s ev = .ok (s', cbs) → s'.incompleteEdge = some ie' →
        ie'.didLeaveOriginalNode = true) ∧
    (s.incompleteEdge = some ie →
      ∀ s' cbs, stepE cfg s Event.mouseLeaveNode = .ok (s', cbs) →
        stepE cfg s' Event.mouseLeaveNode = .ok (s', [])) := by
  refine ⟨fun hie => ?_, fun ev hmid hie hdlv s' cbs ie' hstep hie' => ?_, fun hie s' cbs hstep => ?_⟩
  · by_cases hc : (ie.target ≠ none ∨ ie.didLeaveOriginalNode ≠ true)
    · simp only [stepE, hie]
      rw [if_pos hc]
    · push_neg at hc
      obtain ⟨ht, hd⟩ := hc
      have hrec : ({ ie with target := none, didLeaveOriginalNode := true } :
          EdgeCreateState) = ie := by
        obtain ⟨a, b, c', d, e⟩ := ie
        dsimp at ht hd
        rw [ht, hd]
      have hst : ({ s with incompleteEdge := some ie } : GraphState) = s := by
        obtain ⟨a, b, c', d, e, f⟩ := s
        dsimp at hie
        rw [hie]
      rw [hrec, hst]
      simp only [stepE, hie]
      rw [if_neg (by simp [ht, hd])]
  · cases ev with
    | mouseMoveDocument p =>
      have := stepE_move_incompleteEdge cfg s p hstep
      rw [hie', hie] at this
      simp at this
      rw [this]
      exact hdlv
    | mouseEnterNode nid =>
      simp only [stepE, hie] at hstep
      obtain ⟨hs', -⟩ := by
        simpa using hstep
      rw [← hs'] at hie'
      simp only [Option.some.injEq] at hie'
      rw [← hie']
      exact hdlv
    | mouseLeaveNode =>
      simp only [stepE, hie] at hstep
      by_cases hc : (ie.target ≠ none ∨ ie.didLeaveOriginalNode ≠ true)
      · rw [if_pos hc] at hstep
        obtain ⟨hs', -⟩ := by simpa using hstep
        rw [← hs'] at hie'
        simp only [Option.some.injEq] at hie'
        rw [← hie']
      · rw [if_neg hc] at hstep
        obtain ⟨hs', -⟩ := by simpa using hstep
        rw [← hs', hie] at hie'
        simp only [Option.some.injEq] at hie'
        rw [← hie']
        exact hdlv
    | mouseDownBackground p sp => simp [isGestureMid] at hmid
    | clickBackground c => simp [isGestureMid] at hmid
    | mouseDownNode id p a b => simp [isGestureMid] at hmid
    | mouseUpNode id p => simp [isGestureMid] at hmid
    | clickNode id c => simp [isGestureMid] at hmid
    | mouseUpDocument p => simp [isGestureMid] at hmid
  · simp only [stepE, hie] at hstep
    by_cases hc : (ie.target ≠ none ∨ ie.didLeaveOriginalNode ≠ true)
    · rw [if_pos hc] at hstep
      obtain ⟨hs', -⟩ := by simpa using hstep
      subst hs'
      simp only [stepE]
      rw [if_neg (by simp)]
    · push_neg at hc
      obtain ⟨ht, hd⟩ := hc
      rw [if_neg (by simp [ht, hd])] at hstep
      obtain ⟨hs', -⟩ := by simpa using hstep
      subst hs'
      simp only [stepE, hie]
      rw [if_neg (by simp [ht, hd])]

/-- Witness for C3 at concrete inputs: an active gesture from "a" with a
hover target; the leave clears the target and sets the flag, every
in-gesture event preserves the set flag (instantiated at a mouse-move), and
a second leave is a no-op. -/
theorem edgeCreate_leave_permanent_witness :
    (stepE ⟨[], 2, 1, 0, 0, 0, 0⟩
        ⟨⟨0, 0⟩, none, none, some ⟨some ⟨"a", 0, 0, 1, 1⟩, some ⟨"b", 1, 1, 1, 1⟩,
          ⟨0, 0⟩, ⟨0, 0⟩, false⟩, none, false⟩ Event.mouseLeaveNode =
      .ok (⟨⟨0, 0⟩, none, none, some ⟨some ⟨"a", 0, 0, 1, 1⟩, none,
          ⟨0, 0⟩, ⟨0, 0⟩, true⟩, none, false⟩, [])) ∧
    (∀ s' cbs ie', stepE ⟨[], 2, 1, 0, 0, 0, 0⟩
        ⟨⟨0, 0⟩, none, none, some ⟨some ⟨"a", 0, 0, 1, 1⟩, none, ⟨0, 0⟩, ⟨0, 0⟩, true⟩,
          none, false⟩ (Event.mouseMoveDocument ⟨5, 5⟩) = .ok (s', cbs) →
      s'.incompleteEdge = some ie' → ie'.didLeaveOriginalNode = true) ∧
    (∀ s' cbs, stepE ⟨[], 2, 1, 0, 0, 0, 0⟩
        ⟨⟨0, 0⟩, none, none, some ⟨some ⟨"a", 0, 0, 1, 1⟩, none, ⟨0, 0⟩, ⟨0, 0⟩, true⟩,
          none, false⟩ Event.mouseLeaveNode = .ok (s', cbs) →
      stepE ⟨[], 2, 1, 0, 0, 0, 0⟩ s' Event.mouseLeaveNode = .ok (s', [])) := by
  refine ⟨?_, ?_, ?_⟩
  · exact (edgeCreate_leave_permanent ⟨[], 2, 1, 0, 0, 0, 0⟩ _
      ⟨some ⟨"a", 0, 0, 1, 1⟩, some ⟨"b", 1, 1, 1, 1⟩, ⟨0, 0⟩, ⟨0, 0⟩, false⟩).1 rfl
  · intro s' cbs ie' hstep hie'
    exact (edgeCreate_leave_permanent ⟨[], 2, 1, 0, 0, 0, 0⟩ _
      ⟨some ⟨"a", 0, 0, 1, 1⟩, none, ⟨0, 0⟩, ⟨0, 0⟩, true⟩).2.1
      (Event.mouseMoveDocument ⟨5, 5⟩) rfl rfl rfl s' cbs ie' hstep hie'
  · intro s' cbs hstep
    exact (edgeCreate_leave_permanent ⟨[], 2, 1, 0, 0, 0, 0⟩ _
      ⟨some ⟨"a", 0, 0, 1, 1⟩, none, ⟨0, 0⟩, ⟨0, 0⟩, true⟩).2.2 rfl s' cbs hstep

/-! ## C9: the suppressed-click assertion is safe under the delivery order -/

/-- C9: under the event-ordering precondition that any pending
suppressed-click id was recorded against the node the click is delivered
on, the node click handler never throws its `assertEqual`; and when a
suppression is pending for that node it is cleared without invoking
`onClickNode`. -/
theorem suppressedNodeClick_assert_safe (cfg : Config) (s : GraphState) (i : String)
    (c : ClientPosition)
    (hpre : ∀ j, s.shouldSkipNextNodeClick = some j → j = i) :
    (∃ s' cbs, stepE cfg s (Event.clickNode i c) = .ok (s', cbs)) ∧
    (s.shouldSkipNextNodeClick = some i →
      stepE cfg s (Event.clickNode i c) =
        .ok ({ s with shouldSkipNextNodeClick := none }, [])) := by
  constructor
  · cases hsk : s.shouldSkipNextNodeClick with
    | none =>
      exact ⟨s, [Callback.onClickNode i (lookupNode cfg.nodes i)
        (toWorldSpacePosition cfg s.transformPan c)], by simp [stepE, hsk]⟩
    | some j =>
      have hj : j = i := hpre j hsk
      subst hj
      exact ⟨{ s with shouldSkipNextNodeClick := none }, [], by simp [stepE, hsk]⟩
  · intro hsk
    simp [stepE, hsk]

/-- Witness for C9 at concrete inputs: a pending suppression for "n1" and a
click delivered on "n1": the handler succeeds and clears the suppression
without firing a click callback. -/
theorem suppressedNodeClick_assert_safe_witness :
    (∃ s' cbs, stepE ⟨[], 2, 1, 0, 0, 0, 0⟩
        ⟨⟨0, 0⟩, none, none, none, some "n1", false⟩ (Event.clickNode "n1" ⟨3, 3⟩) =
      .ok (s', cbs)) ∧
    (stepE ⟨[], 2, 1, 0, 0, 0, 0⟩
        ⟨⟨0, 0⟩, none, none, none, some "n1", false⟩ (Event.clickNode "n1" ⟨3, 3⟩) =
      .ok (⟨⟨0, 0⟩, none, none, none, none, false⟩, [])) := by
  have h := suppressedNodeClick_assert_safe ⟨[], 2, 1, 0, 0, 0, 0⟩
    ⟨⟨0, 0⟩, none, none, none, some "n1", false⟩ "n1" ⟨3, 3⟩
    (by intro j hj; cases hj; rfl)
  exact ⟨h.1, h.2 rfl⟩

end RIG
